import Mathlib

/-!
Verification of the PC build recommendation backend (backend.py).

The embedding models part records as structures over exact rationals,
catalogs as association lists from category names to record lists (the
shape of the `parts_data` dict), and each assembler as a total function.
Randomness in the sampling assembler is supplied by an explicit oracle
argument; the per-scenario predictive scorer is an explicit function
argument returning `Option` to model prediction failure.
-/

/-- One purchasable catalog item: `name`, numeric `price`, an optional
`socket` string, and the remaining numeric feature columns as an open
attribute map. -/
structure PartRecord where
  name : String
  price : ℚ
  socket : Option String
  attrs : List (String × ℚ)
deriving DecidableEq

/-- Reading a feature column off a row, as `part.get(feature)` does: the
`price` column is always present; other numeric columns live in `attrs`;
a missing or non-numeric column yields `none`. -/
def PartRecord.getFeature (p : PartRecord) (feature : String) : Option ℚ :=
  if feature = "price" then some p.price else p.attrs.lookup feature

/-- The `parts_data` dictionary: category name to list of rows, in
insertion order. -/
abbrev PartsData := List (String × List PartRecord)

/-- The `normalization_ranges` dictionary: `"{part_type}_{feature}"` to
`(min, max)`. -/
abbrev NormRanges := List (String × (ℚ × ℚ))

/-- A per-category feature-weight map, in iteration order. -/
abbrev FeatureWeights := List (String × ℚ)

/-- A scenario's weight table: category name to feature weights. -/
abbrev CategoryWeights := List (String × FeatureWeights)

/-- A build: category name to the selected row, in insertion order. -/
abbrev Build := List (String × PartRecord)

/-- Total price of a build, as summed by `predict_build_score`. -/
def buildCost (b : Build) : ℚ := (b.map (fun e => e.2.price)).sum

/-- Insertion step of the price sort used to model `sort_values(by="price")`. -/
def insertByPrice (p : PartRecord) : List PartRecord → List PartRecord
  | [] => [p]
  | q :: rest => if p.price ≤ q.price then p :: q :: rest else q :: insertByPrice p rest

/-- Sorting a record list by ascending price, modelling `sort_values(by="price")`. -/
def sortByPrice : List PartRecord → List PartRecord
  | [] => []
  | p :: rest => insertByPrice p (sortByPrice rest)

/-- Pandas-style equality on the `socket` column: two sockets match only
when both are present and equal (a missing value never compares equal). -/
def socketMatches : Option String → Option String → Bool
  | some a, some b => a == b
  | _, _ => false

/-- Rescaling of one feature value inside `_select_best_part_by_score`:
with a recorded range the value is mapped to `(val - min) / (max - min)`,
or to `1/2` when the range is degenerate; with no recorded range the raw
value is used unchanged. -/
def normalizeFeature (normalization_ranges : NormRanges) (part_type feature : String)
    (val : ℚ) : ℚ :=
  match normalization_ranges.lookup (part_type ++ "_" ++ feature) with
  | some mm => if mm.2 - mm.1 > 0 then (val - mm.1) / (mm.2 - mm.1) else 1/2
  | none => val

/-- The weighted score accumulated for one row by
`_select_best_part_by_score`: features absent from the row contribute
nothing; present features contribute `normalized * weight`. -/
def scorePart (part : PartRecord) (part_weights : FeatureWeights)
    (normalization_ranges : NormRanges) (part_type : String) : ℚ :=
  part_weights.foldl (fun score fw =>
    match part.getFeature fw.1 with
    | some val => score + normalizeFeature normalization_ranges part_type fw.1 val * fw.2
    | none => score) 0

/-- First-maximum extraction, modelling `idxmax` on the score column: a
later row replaces the current best only with a strictly greater score. -/
def argmaxAux (best : PartRecord × ℚ) : List (PartRecord × ℚ) → PartRecord × ℚ
  | [] => best
  | x :: rest => argmaxAux (if x.2 > best.2 then x else best) rest

/-- The weighted selector `_select_best_part_by_score`: `none` on an empty
frame, otherwise the first row attaining the maximal score.  In the source
the `scores` list is nonempty exactly when the frame is nonempty, so the
source's cheapest-price fallback branch (taken when `scores` is empty) is
unreachable and is not modelled. -/
def select_best_part_by_score (parts_df : List PartRecord) (part_weights : FeatureWeights)
    (normalization_ranges : NormRanges) (part_type : String) : Option PartRecord :=
  match parts_df with
  | [] => none
  | p :: rest =>
    some (argmaxAux (p, scorePart p part_weights normalization_ranges part_type)
      (rest.map (fun q => (q, scorePart q part_weights normalization_ranges part_type)))).1

/-- Category iteration order of `PART_FILES` (dict insertion order). -/
def PART_TYPES : List String :=
  ["CPU", "GPU", "Motherboard", "RAM", "Storage", "PSU", "Case", "Cooler"]

/-- One rule-based tier result: parts, total cost, remaining budget and
the tier label. -/
structure TierBuild where
  parts : Build
  cost : ℚ
  remaining : ℚ
  tierLabel : String
deriving DecidableEq

/-- Tier labels, indexed by strategy number. -/
def TIER_LABELS : List String := ["Budget Build", "Balanced Build", "Performance Build"]

/-- Strategy selection over the affordable, price-ordered frame: strategy 0
takes the first row, strategy 1 the middle row (first row when only one is
affordable), any other strategy the last row. -/
def pickTierPart (i : Nat) (affordable_parts : List PartRecord) : Option PartRecord :=
  match affordable_parts with
  | [] => none
  | a :: rest =>
    if i = 0 then some a
    else if i = 1 then
      if (a :: rest).length > 1 then some ((a :: rest).getD ((a :: rest).length / 2) a)
      else some a
    else some ((a :: rest).getLast (List.cons_ne_nil a rest))

/-- The category loop of `recommend_builds_rule_based` for one strategy:
filter to the shrinking working budget, pick by strategy, abort the whole
strategy when nothing is affordable. -/
def assembleTierGo (i : Nat) :
    PartsData → Build → ℚ → ℚ → Option (Build × ℚ)
  | [], acc, cost, _ => some (acc.reverse, cost)
  | (part_type, df) :: rest, acc, cost, temp =>
    match pickTierPart i (df.filter (fun p => p.price ≤ temp)) with
    | none => none
    | some sp =>
      assembleTierGo i rest ((part_type, sp) :: acc) (cost + sp.price) (temp - sp.price)

/-- The Tiered Rule Assembler `recommend_builds_rule_based`: requires all
eight categories to be present, then runs the three strategies, each over
the full `parts_data` in insertion order with its own working budget. -/
def recommend_builds_rule_based (parts_data : PartsData) (budget : ℚ) : List TierBuild :=
  if PART_TYPES.all (fun t => (parts_data.lookup t).isSome) then
    (List.range 3).filterMap (fun i =>
      match assembleTierGo i parts_data [] 0 budget with
      | none => none
      | some r => some ⟨r.1, r.2, budget - r.2, TIER_LABELS.getD i ""⟩)
  else []

/-- The per-scenario feature weights of
`generate_smart_recommendation_rule_based`, for "General Use". -/
def GENERAL_USE_WEIGHTS : CategoryWeights :=
  [("CPU", [("speed", 1/5), ("coreCount", 1/10), ("price", -(7/10))]),
   ("GPU", [("price", -1)]),
   ("RAM", [("size", 3/10), ("price", -(7/10))]),
   ("Storage", [("space", 1/5), ("price", -(4/5))]),
   ("PSU", [("power", 1/10), ("price", -(9/10))]),
   ("Motherboard", [("price", -1)]),
   ("Case", [("price", -1)]),
   ("Cooler", [("price", -1)])]

/-- The full `feature_weights` table of the smart assembler. -/
def FEATURE_WEIGHTS : List (String × CategoryWeights) :=
  [("Gaming",
    [("CPU", [("speed", 3/10), ("coreCount", 1/5), ("power", 1/10), ("price", -(2/5))]),
     ("GPU", [("VRAM", 2/5), ("power", 1/5), ("price", -(2/5))]),
     ("RAM", [("size", 3/10), ("price", -(7/10))]),
     ("Storage", [("space", 1/10), ("price", -(9/10))]),
     ("PSU", [("power", 3/10), ("price", -(7/10))]),
     ("Motherboard", [("price", -1)]),
     ("Case", [("price", -1)]),
     ("Cooler", [("price", -1)])]),
   ("Workstation",
    [("CPU", [("coreCount", 2/5), ("threadCount", 3/10), ("speed", 1/5), ("power", 1/10),
              ("price", -(1/2))]),
     ("GPU", [("VRAM", 1/5), ("price", -(4/5))]),
     ("RAM", [("size", 3/5), ("price", -(2/5))]),
     ("Storage", [("space", 1/2), ("price", -(1/2))]),
     ("PSU", [("power", 1/5), ("price", -(4/5))]),
     ("Motherboard", [("price", -1)]),
     ("Case", [("price", -1)]),
     ("Cooler", [("price", -1)])]),
   ("Content Creation",
    [("CPU", [("coreCount", 7/20), ("threadCount", 7/20), ("speed", 1/10), ("price", -(2/5))]),
     ("GPU", [("VRAM", 3/10), ("price", -(7/10))]),
     ("RAM", [("size", 1/2), ("price", -(1/2))]),
     ("Storage", [("space", 2/5), ("price", -(3/5))]),
     ("PSU", [("power", 1/5), ("price", -(4/5))]),
     ("Motherboard", [("price", -1)]),
     ("Case", [("price", -1)]),
     ("Cooler", [("price", -1)])]),
   ("Home Office",
    [("CPU", [("speed", 1/5), ("coreCount", 1/10), ("price", -(7/10))]),
     ("GPU", [("price", -1)]),
     ("RAM", [("size", 3/10), ("price", -(7/10))]),
     ("Storage", [("space", 1/5), ("price", -(4/5))]),
     ("PSU", [("power", 1/10), ("price", -(9/10))]),
     ("Motherboard", [("price", -1)]),
     ("Case", [("price", -1)]),
     ("Cooler", [("price", -1)])]),
   ("General Use", GENERAL_USE_WEIGHTS)]

/-- The "General Use" row of `budget_allocation_priority`. -/
def GENERAL_USE_ALLOC : List (String × ℚ) :=
  [("GPU", 1/10), ("RAM", 1/4), ("Storage", 1/4), ("PSU", 3/20), ("Case", 1/10),
   ("Cooler", 1/20)]

/-- The `budget_allocation_priority` table of the smart assembler. -/
def BUDGET_ALLOCATION : List (String × List (String × ℚ)) :=
  [("Gaming",
    [("GPU", 1/2), ("RAM", 1/5), ("Storage", 3/20), ("PSU", 1/10), ("Case", 1/20),
     ("Cooler", 0)]),
   ("Workstation",
    [("GPU", 3/20), ("RAM", 3/10), ("Storage", 3/10), ("PSU", 3/20), ("Case", 1/20),
     ("Cooler", 1/20)]),
   ("Content Creation",
    [("GPU", 1/4), ("RAM", 1/4), ("Storage", 1/4), ("PSU", 3/20), ("Case", 1/20),
     ("Cooler", 1/20)]),
   ("Home Office",
    [("GPU", 1/20), ("RAM", 1/5), ("Storage", 1/5), ("PSU", 1/10), ("Case", 1/10),
     ("Cooler", 1/20)]),
   ("General Use", GENERAL_USE_ALLOC)]

/-- Fixed iteration order of the remaining categories in the smart
assembler and the sampling assembler. -/
def PART_TYPES_ORDER : List String := ["GPU", "RAM", "Storage", "PSU", "Case", "Cooler"]

/-- The final presence check of the smart assembler. -/
def REQUIRED_PARTS : List String := ["CPU", "Motherboard", "RAM", "GPU", "Storage", "PSU"]

/-- CPU candidate set of the smart assembler: a quarter of the budget,
widened to forty percent, then (still only when the budget is positive)
the single cheapest CPU. -/
def cpuCandidates (cpu_df : List PartRecord) (budget : ℚ) : List PartRecord :=
  if (cpu_df.filter (fun p => p.price ≤ budget * (1/4))).isEmpty ∧ budget > 0 then
    if (cpu_df.filter (fun p => p.price ≤ budget * (2/5))).isEmpty ∧ ¬ cpu_df.isEmpty then
      (sortByPrice cpu_df).take 1
    else cpu_df.filter (fun p => p.price ≤ budget * (2/5))
  else cpu_df.filter (fun p => p.price ≤ budget * (1/4))

/-- Motherboard candidate set of the smart assembler: always restricted to
the selected CPU's socket, at a quarter of the remaining budget, widened
to forty percent of it, then (only when the remaining budget is positive)
the single cheapest socket-matching motherboard. -/
def mbCandidates (motherboard_df : List PartRecord) (cpu : PartRecord)
    (remaining : ℚ) : List PartRecord :=
  if (motherboard_df.filter (fun m =>
        socketMatches m.socket cpu.socket && decide (m.price ≤ remaining * (1/4)))).isEmpty ∧
      remaining > 0 then
    if (motherboard_df.filter (fun m =>
          socketMatches m.socket cpu.socket && decide (m.price ≤ remaining * (2/5)))).isEmpty ∧
        ¬ motherboard_df.isEmpty then
      (sortByPrice (motherboard_df.filter (fun m => socketMatches m.socket cpu.socket))).take 1
    else motherboard_df.filter (fun m =>
      socketMatches m.socket cpu.socket && decide (m.price ≤ remaining * (2/5)))
  else motherboard_df.filter (fun m =>
    socketMatches m.socket cpu.socket && decide (m.price ≤ remaining * (1/4)))

/-- The remaining-categories loop of the smart assembler.  When both the
allocated-share filter and the full-remaining-budget filter come back
empty the source assigns the category's cheapest record to
`selected_part` (printing a warning), but the very next
`if not affordable_parts.empty` test still sees the empty frame, so
control reaches its else-branch and the function returns `None`; that
unreachable assignment is therefore not modelled. -/
def smartLoop (parts_data : PartsData) (normalization_ranges : NormRanges)
    (weights : CategoryWeights) (alloc : List (String × ℚ)) (budget : ℚ) :
    List String → Build → ℚ → Option (Build × ℚ)
  | [], acc, cost => some (acc.reverse, cost)
  | part_type :: rest, acc, cost =>
    match parts_data.lookup part_type with
    | none => none
    | some df =>
      let remaining := budget - cost
      let allocated := remaining * ((alloc.lookup part_type).getD (1/10))
      let afford0 := df.filter (fun p => p.price ≤ allocated)
      let affordable := if afford0.isEmpty then df.filter (fun p => p.price ≤ remaining)
                        else afford0
      if affordable.isEmpty then none
      else
        match select_best_part_by_score affordable ((weights.lookup part_type).getD [])
            normalization_ranges part_type with
        | none => none
        | some p => smartLoop parts_data normalization_ranges weights alloc budget rest
            ((part_type, p) :: acc) (cost + p.price)

/-- The Scenario Smart Assembler `generate_smart_recommendation_rule_based`.
A CPU whose socket column is missing would raise a `KeyError` in the
source; here the socket filters simply never match, so both paths produce
no build. -/
def generate_smart_recommendation_rule_based (parts_data : PartsData)
    (normalization_ranges : NormRanges) (scen : String) (budget : ℚ) : Option Build :=
  match parts_data.lookup "CPU", parts_data.lookup "Motherboard" with
  | some cpu_df, some motherboard_df =>
    if (cpuCandidates cpu_df budget).isEmpty then none
    else
      match select_best_part_by_score (cpuCandidates cpu_df budget)
          ((((FEATURE_WEIGHTS.lookup scen).getD GENERAL_USE_WEIGHTS).lookup "CPU").getD [])
          normalization_ranges "CPU" with
      | none => none
      | some cpu =>
        if (mbCandidates motherboard_df cpu (budget - cpu.price)).isEmpty then none
        else
          match select_best_part_by_score (mbCandidates motherboard_df cpu (budget - cpu.price))
              ((((FEATURE_WEIGHTS.lookup scen).getD GENERAL_USE_WEIGHTS).lookup
                "Motherboard").getD [])
              normalization_ranges "Motherboard" with
          | none => none
          | some mb =>
            match smartLoop parts_data normalization_ranges
                ((FEATURE_WEIGHTS.lookup scen).getD GENERAL_USE_WEIGHTS)
                ((BUDGET_ALLOCATION.lookup scen).getD GENERAL_USE_ALLOC) budget
                PART_TYPES_ORDER [] (cpu.price + mb.price) with
            | none => none
            | some r =>
              if REQUIRED_PARTS.all
                  (fun t => ((("CPU", cpu) :: ("Motherboard", mb) :: r.1).lookup t).isSome) then
                some (("CPU", cpu) :: ("Motherboard", mb) :: r.1)
              else none
  | _, _ => none

/-- The fixed feature vector handed to the predictive scorer. -/
structure FeatureVec where
  cpu_speed : ℚ
  cpu_cores : ℚ
  cpu_threads : ℚ
  gpu_vram : ℚ
  ram_size : ℚ
  storage_space : ℚ
  psu_power : ℚ
  total_price : ℚ
deriving DecidableEq

/-- Building the feature vector from a build dictionary, defaulting every
missing entry to 0 and summing all part prices. -/
def mkFeatureVec (build : Build) : FeatureVec :=
  { cpu_speed := (((build.lookup "CPU").bind (fun p => p.getFeature "speed")).getD 0)
    cpu_cores := (((build.lookup "CPU").bind (fun p => p.getFeature "coreCount")).getD 0)
    cpu_threads := (((build.lookup "CPU").bind (fun p => p.getFeature "threadCount")).getD 0)
    gpu_vram := (((build.lookup "GPU").bind (fun p => p.getFeature "VRAM")).getD 0)
    ram_size := (((build.lookup "RAM").bind (fun p => p.getFeature "size")).getD 0)
    storage_space := (((build.lookup "Storage").bind (fun p => p.getFeature "space")).getD 0)
    psu_power := (((build.lookup "PSU").bind (fun p => p.getFeature "power")).getD 0)
    total_price := buildCost build }

/-- The per-scenario predictive scorers: a scorer may fail (`none`),
modelling a prediction exception. -/
abbrev MlModels := List (String × (FeatureVec → Option ℚ))

/-- The scoring adapter `predict_build_score`: looks up the scenario's
model, evaluates it on the feature vector, and clamps a negative
prediction to `max 0`. -/
def predict_build_score (ml_models : MlModels) (build : Build) (scen : String) : Option ℚ :=
  match ml_models.lookup scen with
  | none => none
  | some model =>
    match model (mkFeatureVec build) with
    | none => none
    | some prediction => some (if prediction < 0 then max 0 prediction else prediction)

/-- Uniform random choice out of a candidate list, driven by one oracle
value: any member can be produced by a suitable value. -/
def sampleOne (candidates : List PartRecord) (r : Nat) : Option PartRecord :=
  candidates.get? (r % candidates.length)

/-- The remaining-categories loop of one sampling trial: a category's data
must be present and nonempty; a random affordable record is taken, or the
first (cheapest) record of the frame when nothing is affordable. -/
def trialLoop (parts_data : PartsData) (rand : Nat → Nat) :
    List String → Nat → Build → ℚ → ℚ → Option (Build × ℚ)
  | [], _, acc, cost, _ => some (acc.reverse, cost)
  | part_type :: rest, k, acc, cost, temp =>
    match parts_data.lookup part_type with
    | none => none
    | some df =>
      if df.isEmpty then none
      else
        match (if (df.filter (fun p => p.price ≤ temp)).isEmpty then df.head?
               else sampleOne (df.filter (fun p => p.price ≤ temp)) (rand k)) with
        | none => none
        | some p =>
          trialLoop parts_data rand rest (k + 1) ((part_type, p) :: acc) (cost + p.price)
            (temp - p.price)

/-- One trial of `generate_ml_based_recommendations`: random CPU within
forty percent of the budget (else the cheapest), a random socket-matching
motherboard within half of the remaining budget (else the cheapest
matching one), then the remaining categories; any failure aborts the
trial. -/
def runTrial (parts_data : PartsData) (budget : ℚ) (rand : Nat → Nat) :
    Option (Build × ℚ) :=
  match parts_data.lookup "CPU" with
  | none => none
  | some cpu_df =>
    if cpu_df.isEmpty then none
    else
      match sampleOne
          (if (cpu_df.filter (fun p => p.price ≤ budget * (2/5))).isEmpty then
            (sortByPrice cpu_df).take 1
          else cpu_df.filter (fun p => p.price ≤ budget * (2/5))) (rand 0) with
      | none => none
      | some cpu =>
        match parts_data.lookup "Motherboard" with
        | none => none
        | some motherboard_df =>
          if motherboard_df.isEmpty then none
          else
            match cpu.socket with
            | none => none
            | some sock =>
              match sampleOne
                  (if (motherboard_df.filter (fun m =>
                        socketMatches m.socket (some sock) &&
                          decide (m.price ≤ (budget - cpu.price) * (1/2)))).isEmpty then
                    (sortByPrice (motherboard_df.filter
                      (fun m => socketMatches m.socket (some sock)))).take 1
                  else motherboard_df.filter (fun m =>
                    socketMatches m.socket (some sock) &&
                      decide (m.price ≤ (budget - cpu.price) * (1/2)))) (rand 1) with
              | none => none
              | some mb =>
                trialLoop parts_data rand PART_TYPES_ORDER 2
                  [("Motherboard", mb), ("CPU", cpu)] (cpu.price + mb.price)
                  ((budget - cpu.price) - mb.price)

/-- A scored build of the sampling assembler: the `_ml_score` entry is
kept alongside the parts. -/
structure ScoredBuild where
  parts : Build
  ml_score : ℚ
deriving DecidableEq

/-- The Stochastic Search Assembler `generate_ml_based_recommendations`:
runs `num_samples` independent trials, keeps complete builds whose total
cost stays within the budget and whose score call succeeds, sorts them by
score descending (stably) and returns the first `top_n`. -/
def generate_ml_based_recommendations (parts_data : PartsData) (ml_models : MlModels)
    (oracle : Nat → Nat → Nat) (budget : ℚ) (scen : String)
    (num_samples top_n : Nat) : List ScoredBuild :=
  match ml_models.lookup scen with
  | none => []
  | some _ =>
    (((List.range num_samples).filterMap (fun i =>
      match runTrial parts_data budget (oracle i) with
      | none => none
      | some r =>
        if r.2 ≤ budget then
          match predict_build_score ml_models r.1 scen with
          | none => none
          | some s => some (⟨r.1, s⟩ : ScoredBuild)
        else none)).mergeSort (fun a b => decide (b.ml_score ≤ a.ml_score))).take top_n

/-! Concrete demonstration data used by closed witness and counterexample
theorems. -/

/-- A record with no socket and no extra features. -/
def plainPart (n : String) (pr : ℚ) : PartRecord := ⟨n, pr, none, []⟩

/-- A record carrying a socket string. -/
def socketPart (n : String) (pr : ℚ) (s : String) : PartRecord := ⟨n, pr, some s, []⟩

/-- A small complete catalog: one record per category, sockets matching. -/
def demoPartsData : PartsData :=
  [("CPU", [socketPart "c20" 20 "S1"]),
   ("GPU", [plainPart "g1" 1]),
   ("Motherboard", [socketPart "m10" 10 "S1"]),
   ("RAM", [plainPart "r1" 1]),
   ("Storage", [plainPart "s1" 1]),
   ("PSU", [plainPart "p1" 1]),
   ("Case", [plainPart "k1" 1]),
   ("Cooler", [plainPart "l1" 1])]

/-- The tier build the Tiered Rule Assembler produces on `demoPartsData`
with budget 100 and strategy 0. -/
def demoTierBuild : TierBuild :=
  ⟨[("CPU", socketPart "c20" 20 "S1"), ("GPU", plainPart "g1" 1),
    ("Motherboard", socketPart "m10" 10 "S1"), ("RAM", plainPart "r1" 1),
    ("Storage", plainPart "s1" 1), ("PSU", plainPart "p1" 1),
    ("Case", plainPart "k1" 1), ("Cooler", plainPart "l1" 1)],
   36, 64, "Budget Build"⟩

/-- The build the Scenario Smart Assembler produces on `demoPartsData`
with scenario "General Use" and budget 100. -/
def demoSmartBuild : Build :=
  [("CPU", socketPart "c20" 20 "S1"), ("Motherboard", socketPart "m10" 10 "S1"),
   ("GPU", plainPart "g1" 1), ("RAM", plainPart "r1" 1), ("Storage", plainPart "s1" 1),
   ("PSU", plainPart "p1" 1), ("Case", plainPart "k1" 1), ("Cooler", plainPart "l1" 1)]

/-- The scored build one sampling trial produces on `demoPartsData` with
budget 100 and a constant scorer returning 50. -/
def demoScoredBuild : ScoredBuild := ⟨demoSmartBuild, 50⟩

/-- A constant predictive scorer for the "General Use" scenario. -/
def demoMlModels : MlModels := [("General Use", fun _ => some 50)]

/-- Catalog whose sole GPU costs more than any remaining budget: the smart
assembler's documented cheapest-regardless-of-budget fallback fires here. -/
def gpuTooDearPartsData : PartsData :=
  [("CPU", [socketPart "c20" 20 "S1"]),
   ("GPU", [plainPart "g500" 500]),
   ("Motherboard", [socketPart "m10" 10 "S1"]),
   ("RAM", [plainPart "r1" 1]),
   ("Storage", [plainPart "s1" 1]),
   ("PSU", [plainPart "p1" 1]),
   ("Case", [plainPart "k1" 1]),
   ("Cooler", [plainPart "l1" 1])]

/-- Catalog whose sole socket-matching motherboard costs more than the
whole budget: the cheapest-compatible-motherboard fallback selects it and
pushes the running total over budget. -/
def mbTooDearPartsData : PartsData :=
  [("CPU", [socketPart "c20" 20 "S1"]),
   ("GPU", [plainPart "g1" 1]),
   ("Motherboard", [socketPart "m200" 200 "S1"]),
   ("RAM", [plainPart "r1" 1]),
   ("Storage", [plainPart "s1" 1]),
   ("PSU", [plainPart "p1" 1]),
   ("Case", [plainPart "k1" 1]),
   ("Cooler", [plainPart "l1" 1])]

/-- A complete catalog in which every record is free. -/
def zeroPartsData : PartsData :=
  [("CPU", [socketPart "c0" 0 "S1"]),
   ("GPU", [plainPart "g0" 0]),
   ("Motherboard", [socketPart "m0" 0 "S1"]),
   ("RAM", [plainPart "r0" 0]),
   ("Storage", [plainPart "s0" 0]),
   ("PSU", [plainPart "p0" 0]),
   ("Case", [plainPart "k0" 0]),
   ("Cooler", [plainPart "l0" 0])]

/-- Two candidates, price-sorted, neither carrying the weighted feature. -/
def unscorableParts : List PartRecord := [plainPart "x" 5, plainPart "y" 7]

/-! Helper lemmas about the embedding's building blocks. -/

/-- A successful association-list lookup exhibits a member. -/
theorem lookup_mem {β : Type} {l : List (String × β)} {k : String} {v : β}
    (h : l.lookup k = some v) : (k, v) ∈ l := by
  induction l with
  | nil => simp [List.lookup] at h
  | cons e rest ih =>
    obtain ⟨a, b⟩ := e
    rw [List.lookup] at h
    by_cases hk : k = a
    · subst hk
      simp at h
      subst h
      exact List.mem_cons_self _ _
    · have hbeq : (k == a) = false := beq_eq_false_iff_ne.mpr hk
      rw [hbeq] at h
      exact List.mem_cons_of_mem _ (ih h)

/-- The first element of a nonempty list is a member. -/
theorem headMem {α : Type} {l : List α} {a : α} (h : l.head? = some a) : a ∈ l := by
  cases l with
  | nil => simp at h
  | cons x xs =>
    simp at h
    subst h
    exact List.mem_cons_self _ _

/-- Membership is preserved by the price-sort insertion step. -/
theorem mem_insertByPrice {p q : PartRecord} {l : List PartRecord} :
    q ∈ insertByPrice p l ↔ q = p ∨ q ∈ l := by
  induction l with
  | nil => simp [insertByPrice]
  | cons x xs ih =>
    rw [insertByPrice]
    by_cases h : p.price ≤ x.price
    · simp [h]
    · simp [h, ih]
      tauto

/-- The price sort is a permutation as far as membership is concerned. -/
theorem mem_sortByPrice {q : PartRecord} {l : List PartRecord} :
    q ∈ sortByPrice l ↔ q ∈ l := by
  induction l with
  | nil => simp [sortByPrice]
  | cons x xs ih => rw [sortByPrice]; simp [mem_insertByPrice, ih]

/-- A successful random choice yields a member of the candidate list. -/
theorem sampleOne_mem {l : List PartRecord} {r : Nat} {p : PartRecord}
    (h : sampleOne l r = some p) : p ∈ l :=
  List.get?_mem h

/-- A matching socket comparison forces equality of the socket fields. -/
theorem socketMatches_eq {a b : Option String} (h : socketMatches a b = true) : a = b := by
  cases a with
  | none => simp [socketMatches] at h
  | some x =>
    cases b with
    | none => simp [socketMatches] at h
    | some y =>
      simp [socketMatches] at h
      rw [h]

/-- First-maximum extraction yields the seed or a list element. -/
theorem argmaxAux_mem (l : List (PartRecord × ℚ)) :
    ∀ best : PartRecord × ℚ, argmaxAux best l = best ∨ argmaxAux best l ∈ l := by
  induction l with
  | nil => intro best; left; rfl
  | cons x xs ih =>
    intro best
    rw [argmaxAux]
    by_cases h : x.2 > best.2
    · rcases ih (if x.2 > best.2 then x else best) with h' | h'
      · rw [h', if_pos h]; right; exact List.mem_cons_self _ _
      · right; exact List.mem_cons_of_mem _ h'
    · rcases ih (if x.2 > best.2 then x else best) with h' | h'
      · rw [h', if_neg h]; left; rfl
      · right; exact List.mem_cons_of_mem _ h'

/-- When no later score strictly beats the seed, the seed survives. -/
theorem argmaxAux_of_no_better (l : List (PartRecord × ℚ)) :
    ∀ best : PartRecord × ℚ, (∀ x ∈ l, ¬ x.2 > best.2) → argmaxAux best l = best := by
  induction l with
  | nil => intro best _; rfl
  | cons x xs ih =>
    intro best h
    rw [argmaxAux, if_neg (h x (List.mem_cons_self _ _))]
    exact ih best (fun y hy => h y (List.mem_cons_of_mem _ hy))

/-- The weighted selector only ever returns a member of its input frame. -/
theorem select_best_mem {l : List PartRecord} {pw : FeatureWeights} {nr : NormRanges}
    {pt : String} {p : PartRecord} (h : select_best_part_by_score l pw nr pt = some p) :
    p ∈ l := by
  cases l with
  | nil => simp [select_best_part_by_score] at h
  | cons a rest =>
    rw [select_best_part_by_score] at h
    injection h with h
    rcases argmaxAux_mem (rest.map (fun q => (q, scorePart q pw nr pt)))
        (a, scorePart a pw nr pt) with h' | h'
    · rw [← h, h']; exact List.mem_cons_self _ _
    · rw [List.mem_map] at h'
      obtain ⟨q, hq, hq'⟩ := h'
      rw [← h, ← hq']
      exact List.mem_cons_of_mem _ hq

/-- A row none of whose weighted features is present scores zero. -/
theorem scorePart_eq_zero {p : PartRecord} {pw : FeatureWeights} {nr : NormRanges}
    {pt : String} (h : ∀ fw ∈ pw, p.getFeature fw.1 = none) :
    scorePart p pw nr pt = 0 := by
  rw [scorePart]
  induction pw with
  | nil => rfl
  | cons fw rest ih =>
    rw [List.foldl_cons, h fw (List.mem_cons_self _ _)]
    exact ih (fun fw' hfw' => h fw' (List.mem_cons_of_mem _ hfw'))

/-- C5: the Weighted Selector returns `none` exactly on an empty candidate
list (so some record on every nonempty one), and when no feature of the
weight map can be scored on any candidate it returns the lowest-priced
candidate of a price-sorted candidate list. -/
theorem weighted_selector_totality (parts_df : List PartRecord)
    (part_weights : FeatureWeights) (normalization_ranges : NormRanges) (part_type : String) :
    (select_best_part_by_score parts_df part_weights normalization_ranges part_type = none ↔
      parts_df = []) ∧
    (parts_df.Pairwise (fun a b => a.price ≤ b.price) →
      (∀ p ∈ parts_df, ∀ fw ∈ part_weights, p.getFeature fw.1 = none) →
      ∀ q, select_best_part_by_score parts_df part_weights normalization_ranges part_type =
          some q →
        q ∈ parts_df ∧ ∀ r ∈ parts_df, q.price ≤ r.price) := by
  constructor
  · cases parts_df with
    | nil => simp [select_best_part_by_score]
    | cons a rest => simp [select_best_part_by_score]
  · intro hsorted hnone q hq
    cases parts_df with
    | nil => simp [select_best_part_by_score] at hq
    | cons a rest =>
      rw [select_best_part_by_score] at hq
      have harg : argmaxAux (a, scorePart a part_weights normalization_ranges part_type)
          (rest.map (fun r => (r, scorePart r part_weights normalization_ranges part_type))) =
          (a, scorePart a part_weights normalization_ranges part_type) := by
        apply argmaxAux_of_no_better
        intro x hx
        rw [List.mem_map] at hx
        obtain ⟨r, hr, hrx⟩ := hx
        rw [← hrx]
        simp only
        rw [scorePart_eq_zero (hnone r (List.mem_cons_of_mem _ hr)),
          scorePart_eq_zero (hnone a (List.mem_cons_self _ _))]
        exact lt_irrefl 0
      rw [harg] at hq
      injection hq with hq
      subst hq
      refine ⟨List.mem_cons_self _ _, ?_⟩
      intro r hr
      rcases List.mem_cons.mp hr with h' | h'
      · rw [h']
      · exact (List.pairwise_cons.mp hsorted).1 r h'

/-- C5 witness: on a concrete price-sorted pair of candidates carrying no
scorable feature, the selector is total and picks the cheapest record. -/
theorem weighted_selector_totality_witness :
    (select_best_part_by_score unscorableParts [("speed", 1)] [] "Case" = none ↔
      unscorableParts = []) ∧
    (plainPart "x" 5 ∈ unscorableParts ∧
      ∀ r ∈ unscorableParts, (plainPart "x" 5).price ≤ r.price) := by
  have h := weighted_selector_totality unscorableParts [("speed", 1)] [] "Case"
  refine ⟨h.1, h.2 ?_ ?_ (plainPart "x" 5) ?_⟩
  · norm_num [unscorableParts, plainPart, List.pairwise_cons]
  · intro p hp fw hfw
    simp [unscorableParts] at hp
    simp at hfw
    rcases hp with h' | h' <;> rw [h', hfw] <;> rfl
  · rfl

/-- C8 (amended): for a feature with a recorded normalization range the
selector rescales a value to `(value - min) / (max - min)`, which lies in
the unit interval for in-range values, and a degenerate range maps every
value to one half; a feature with no recorded range, however, enters the
weighted sum as its raw value. -/
theorem normalization_range_rescaling (normalization_ranges : NormRanges)
    (part_type feature : String) (val mn mx : ℚ)
    (hlk : normalization_ranges.lookup (part_type ++ "_" ++ feature) = some (mn, mx)) :
    (mn < mx →
      normalizeFeature normalization_ranges part_type feature val = (val - mn) / (mx - mn) ∧
      (mn ≤ val → val ≤ mx →
        0 ≤ (val - mn) / (mx - mn) ∧ (val - mn) / (mx - mn) ≤ 1)) ∧
    (mx = mn → normalizeFeature normalization_ranges part_type feature val = 1/2) := by
  constructor
  · intro hlt
    have hpos : mx - mn > 0 := sub_pos.mpr hlt
    constructor
    · unfold normalizeFeature
      rw [hlk]
      simp only
      rw [if_pos hpos]
    · intro h1 h2
      exact ⟨div_nonneg (by linarith) (le_of_lt hpos), by rw [div_le_one hpos]; linarith⟩
  · intro heq
    unfold normalizeFeature
    rw [hlk]
    simp only
    rw [if_neg (by rw [heq]; simp)]

/-- C8 counterexample: with an empty range table the raw value 7 of the
weighted feature enters the weighted sum unrescaled, outside `[0, 1]`. -/
theorem raw_feature_value_enters_sum :
    scorePart ⟨"p7", 100, none, [("speed", 7)]⟩ [("speed", 1)] [] "CPU" = 7 ∧
    normalizeFeature [] "CPU" "speed" 7 = 7 ∧ ¬ ((0:ℚ) ≤ 7 ∧ (7:ℚ) ≤ 1) := by
  refine ⟨?_, rfl, by norm_num⟩
  have h1 : scorePart ⟨"p7", 100, none, [("speed", 7)]⟩ [("speed", 1)] [] "CPU" =
      0 + normalizeFeature [] "CPU" "speed" 7 * 1 := rfl
  have h2 : normalizeFeature [] "CPU" "speed" 7 = 7 := rfl
  rw [h1, h2]
  norm_num

/-- C8 witness: a concrete recorded range rescales 7 over `[0, 10]` into
the unit interval, and a degenerate recorded range maps 9 to one half. -/
theorem normalization_range_rescaling_witness :
    normalizeFeature [("CPU_speed", ((0:ℚ), (10:ℚ)))] "CPU" "speed" 7 = (7 - 0) / (10 - 0) ∧
    0 ≤ ((7:ℚ) - 0) / (10 - 0) ∧ ((7:ℚ) - 0) / (10 - 0) ≤ 1 ∧
    normalizeFeature [("CPU_flat", ((5:ℚ), (5:ℚ)))] "CPU" "flat" 9 = 1/2 := by
  have h1 := normalization_range_rescaling [("CPU_speed", (0, 10))] "CPU" "speed" 7 0 10 rfl
  have h2 := normalization_range_rescaling [("CPU_flat", (5, 5))] "CPU" "flat" 9 5 5 rfl
  have h1' := h1.1 (by norm_num)
  have hb := h1'.2 (by norm_num) (by norm_num)
  exact ⟨h1'.1, hb.1, hb.2, h2.2 rfl⟩

/-- A positional default lookup stays inside the list when the default is
itself a member. -/
theorem getD_mem_of_mem {α : Type} {l : List α} {n : Nat} {d : α} (hd : d ∈ l) :
    l.getD n d ∈ l := by
  rw [List.getD_eq_getElem?_getD]
  rcases h : l[n]? with _ | x
  · exact hd
  · simpa using List.getElem?_mem h

/-- Whatever the strategy, a picked tier part is one of the affordable
records. -/
theorem pickTierPart_mem {i : Nat} {aff : List PartRecord} {p : PartRecord}
    (h : pickTierPart i aff = some p) : p ∈ aff := by
  cases aff with
  | nil => simp [pickTierPart] at h
  | cons a rest =>
    rw [pickTierPart] at h
    split_ifs at h with h0 h1 h2
    · injection h with h; rw [← h]; exact List.mem_cons_self _ _
    · injection h with h; rw [← h]
      exact getD_mem_of_mem (List.mem_cons_self _ _)
    · injection h with h; rw [← h]; exact List.mem_cons_self _ _
    · injection h with h; rw [← h]; exact List.getLast_mem _

/-- Cost bound through the tier loop: every selected part was affordable
against the working budget, so the accumulated cost never outruns the
initial cost plus working budget (except in the vacuous empty-catalog
case, where the cost is returned unchanged). -/
theorem assembleTierGo_cost_le {i : Nat} :
    ∀ {items : PartsData} {acc : Build} {cost temp : ℚ} {r : Build × ℚ},
      assembleTierGo i items acc cost temp = some r →
      r.2 ≤ cost + temp ∨ (items = [] ∧ r.2 = cost) := by
  intro items
  induction items with
  | nil =>
    intro acc cost temp r h
    rw [assembleTierGo] at h
    injection h with h
    right
    exact ⟨rfl, by rw [← h]⟩
  | cons e rest ih =>
    intro acc cost temp r h
    obtain ⟨part_type, df⟩ := e
    rw [assembleTierGo] at h
    rcases hp : pickTierPart i (df.filter (fun p => p.price ≤ temp)) with _ | sp
    · rw [hp] at h; exact absurd h (by simp)
    · rw [hp] at h
      have hsp : sp.price ≤ temp :=
        of_decide_eq_true (List.mem_filter.mp (pickTierPart_mem hp)).2
      rcases ih h with h' | ⟨_, hc⟩
      · left; linarith
      · left; rw [hc]; linarith

/-- C1: every build returned by the Tiered Rule Assembler has cost at most
the given budget, and its remaining field equals budget minus cost. -/
theorem tiered_cost_within_budget (parts_data : PartsData) (budget : ℚ) :
    ∀ b ∈ recommend_builds_rule_based parts_data budget,
      b.cost ≤ budget ∧ b.remaining = budget - b.cost := by
  intro b hb
  rw [recommend_builds_rule_based] at hb
  split at hb
  case isTrue hall =>
    rw [List.mem_filterMap] at hb
    obtain ⟨i, _, heq⟩ := hb
    rcases hgo : assembleTierGo i parts_data [] 0 budget with _ | r
    · rw [hgo] at heq; exact absurd heq (by simp)
    · rw [hgo] at heq
      injection heq with heq
      have hne : parts_data ≠ [] := by
        intro hnil
        rw [hnil] at hall
        simp [PART_TYPES] at hall
      rcases assembleTierGo_cost_le hgo with h' | ⟨hnil, _⟩
      · constructor
        · rw [← heq]; simpa using h'
        · rw [← heq]
      · exact absurd hnil hne
  case isFalse => exact absurd hb (by simp)

/-- C1 witness: on the concrete demonstration catalog with budget 100 the
first tiered build costs 36 and reports 64 remaining. -/
theorem tiered_cost_within_budget_witness :
    demoTierBuild.cost ≤ 100 ∧ demoTierBuild.remaining = 100 - demoTierBuild.cost := by
  apply tiered_cost_within_budget demoPartsData 100 demoTierBuild
  rw [recommend_builds_rule_based, if_pos (by decide)]
  apply List.mem_filterMap.mpr
  refine ⟨0, by decide, ?_⟩
  have hgo : assembleTierGo 0 demoPartsData [] 0 100 = some (demoTierBuild.parts, 36) := by
    norm_num [assembleTierGo, pickTierPart, demoPartsData, demoTierBuild, plainPart,
      socketPart]
  rw [hgo]
  norm_num [demoTierBuild, TIER_LABELS]

/-- C7 counterexample: with budget 0, which the specification says must be
rejected before any assembly attempt, the tiered assembler instead runs
its assembly and returns three complete builds. -/
theorem budget_not_validated_counterexample :
    (recommend_builds_rule_based zeroPartsData 0).length = 3 := by
  norm_num [recommend_builds_rule_based, assembleTierGo, pickTierPart, zeroPartsData,
    plainPart, socketPart, List.range_succ, PART_TYPES, TIER_LABELS, List.filterMap]

/-- Taking a prefix of a descending merge sort keeps it pairwise
descending on scores. -/
theorem take_mergeSort_sorted (l : List ScoredBuild) (n : Nat) :
    ((l.mergeSort (fun a b => decide (b.ml_score ≤ a.ml_score))).take n).Pairwise
      (fun a b => b.ml_score ≤ a.ml_score) := by
  have hs := @List.sorted_mergeSort ScoredBuild
    (fun a b => decide (b.ml_score ≤ a.ml_score))
    (fun a b c hab hbc => by
      simp only [decide_eq_true_eq] at *
      exact le_trans hbc hab)
    (fun a b => by
      simp only [Bool.or_eq_true, decide_eq_true_eq]
      exact le_total b.ml_score a.ml_score) l
  refine List.Pairwise.imp ?_ (List.Pairwise.sublist (List.take_sublist _ _) hs)
  intro a b hab
  simpa using hab

/-- C4: the Stochastic Search Assembler's output is sorted by predicted
score in descending order and contains at most `top_n` builds. -/
theorem sampling_output_sorted_and_bounded (parts_data : PartsData) (ml_models : MlModels)
    (oracle : Nat → Nat → Nat) (budget : ℚ) (scen : String) (num_samples top_n : Nat) :
    (generate_ml_based_recommendations parts_data ml_models oracle budget scen num_samples
        top_n).Pairwise (fun a b => b.ml_score ≤ a.ml_score) ∧
    (generate_ml_based_recommendations parts_data ml_models oracle budget scen num_samples
        top_n).length ≤ top_n := by
  rw [generate_ml_based_recommendations]
  split
  · simp
  · refine ⟨take_mergeSort_sorted _ _, ?_⟩
    rw [List.length_take]
    exact min_le_left _ _

/-- C9: with zero samples the Stochastic Search Assembler returns the
empty list (and, being a total function, signals no error). -/
theorem sampling_zero_samples_empty (parts_data : PartsData) (ml_models : MlModels)
    (oracle : Nat → Nat → Nat) (budget : ℚ) (scen : String) (top_n : Nat) :
    generate_ml_based_recommendations parts_data ml_models oracle budget scen 0 top_n = [] := by
  rw [generate_ml_based_recommendations]
  split
  · rfl
  · simp [List.mergeSort_nil]

/-- Invariant of the sampling trial's category loop: the returned cost
extends the accumulated cost by exactly the prices of the newly selected
parts, the accumulator survives into the result, and every result entry
either came from the accumulator or is a member of its category's frame. -/
theorem trialLoop_facts {parts_data : PartsData} {rand : Nat → Nat} :
    ∀ {pts : List String} {k : Nat} {acc : Build} {cost temp : ℚ} {r : Build × ℚ},
      trialLoop parts_data rand pts k acc cost temp = some r →
      buildCost r.1 + cost = buildCost acc + r.2 ∧
      (∀ e ∈ acc, e ∈ r.1) ∧
      (∀ e ∈ r.1, e ∈ acc ∨ ∃ df, parts_data.lookup e.1 = some df ∧ e.2 ∈ df) := by
  intro pts
  induction pts with
  | nil =>
    intro k acc cost temp r h
    rw [trialLoop] at h
    injection h with h
    rw [← h]
    refine ⟨by simp [buildCost, List.sum_reverse], ?_, ?_⟩
    · intro e he; simpa using he
    · intro e he; left; simpa using he
  | cons pt rest ih =>
    intro k acc cost temp r h
    rw [trialLoop] at h
    split at h
    · exact absurd h (by simp)
    next df hlk =>
      split at h
      · exact absurd h (by simp)
      next hdf =>
        split at h
        next hch => exact absurd h (by simp)
        next p hch =>
          have hpdf : p ∈ df := by
            by_cases hemp : (df.filter (fun p => p.price ≤ temp)).isEmpty
            · rw [if_pos hemp] at hch; exact headMem hch
            · rw [if_neg hemp] at hch
              exact (List.mem_filter.mp (sampleOne_mem hch)).1
          obtain ⟨hsum, hsub, hmem⟩ := ih h
          refine ⟨?_, ?_, ?_⟩
          · simp only [buildCost, List.map_cons, List.sum_cons] at hsum ⊢
            linarith
          · intro e he
            exact hsub e (List.mem_cons_of_mem _ he)
          · intro e he
            rcases hmem e he with h' | h'
            · rcases List.mem_cons.mp h' with h'' | h''
              · right; rw [h'']; exact ⟨df, hlk, hpdf⟩
              · left; exact h''
            · right; exact h'

/-- Facts about a successful sampling trial: its cost equals the total
price of its parts, it is nonempty, and every selected record belongs to
its category's frame in the catalog. -/
theorem runTrial_facts {parts_data : PartsData} {budget : ℚ} {rand : Nat → Nat}
    {r : Build × ℚ} (h : runTrial parts_data budget rand = some r) :
    r.2 = buildCost r.1 ∧ r.1 ≠ [] ∧
    ∀ e ∈ r.1, ∃ df, parts_data.lookup e.1 = some df ∧ e.2 ∈ df := by
  rw [runTrial] at h
  split at h
  · exact absurd h (by simp)
  next cpu_df hcpu =>
    split at h
    · exact absurd h (by simp)
    next hce =>
      split at h
      next hs1 => exact absurd h (by simp)
      next cpu hs1 =>
        have hcpu_mem : cpu ∈ cpu_df := by
          have hm := sampleOne_mem hs1
          by_cases hemp : (cpu_df.filter (fun p => p.price ≤ budget * (2/5))).isEmpty
          · rw [if_pos hemp] at hm
            exact mem_sortByPrice.mp ((List.take_sublist 1 (sortByPrice cpu_df)).subset hm)
          · rw [if_neg hemp] at hm
            exact (List.mem_filter.mp hm).1
        split at h
        · exact absurd h (by simp)
        next mb_df hmbd =>
          split at h
          · exact absurd h (by simp)
          next hme =>
            split at h
            · exact absurd h (by simp)
            next sock hsk =>
              split at h
              next hs2 => exact absurd h (by simp)
              next mb hs2 =>
                have hmb_mem : mb ∈ mb_df := by
                  have hm := sampleOne_mem hs2
                  by_cases hemp : (mb_df.filter (fun m =>
                      socketMatches m.socket (some sock) &&
                        decide (m.price ≤ (budget - cpu.price) * (1/2)))).isEmpty
                  · rw [if_pos hemp] at hm
                    exact (List.mem_filter.mp (mem_sortByPrice.mp
                      ((List.take_sublist 1 _).subset hm))).1
                  · rw [if_neg hemp] at hm
                    exact (List.mem_filter.mp hm).1
                obtain ⟨hsum, hsub, hmem⟩ := trialLoop_facts h
                refine ⟨?_, ?_, ?_⟩
                · simp only [buildCost, List.map_cons, List.sum_cons, List.map_nil,
                    List.sum_nil] at hsum ⊢
                  linarith
                · exact List.ne_nil_of_mem (hsub ("CPU", cpu) (by simp))
                · intro e he
                  rcases hmem e he with h' | h'
                  · rcases List.mem_cons.mp h' with h'' | h''
                    · rw [h'']; exact ⟨mb_df, hmbd, hmb_mem⟩
                    · rcases List.mem_cons.mp h'' with h3 | h3
                      · rw [h3]; exact ⟨cpu_df, hcpu, hcpu_mem⟩
                      · exact absurd h3 (by simp)
                  · exact h'

/-- A successful prediction is clamped to be non-negative. -/
theorem predict_build_score_nonneg {ml_models : MlModels} {build : Build} {scen : String}
    {s : ℚ} (h : predict_build_score ml_models build scen = some s) : 0 ≤ s := by
  rw [predict_build_score] at h
  split at h
  · exact absurd h (by simp)
  · split at h
    · exact absurd h (by simp)
    · injection h with h
      rw [← h]
      split_ifs with hneg
      · exact le_max_left 0 _
      · linarith

/-- C6: a sampled build enters the result set only when complete and
within budget, with its score clamped to be non-negative, so every
returned build costs at most the budget and has a non-negative score. -/
theorem sampling_output_within_budget (parts_data : PartsData) (ml_models : MlModels)
    (oracle : Nat → Nat → Nat) (budget : ℚ) (scen : String) (num_samples top_n : Nat) :
    ∀ b ∈ generate_ml_based_recommendations parts_data ml_models oracle budget scen
        num_samples top_n,
      buildCost b.parts ≤ budget ∧ 0 ≤ b.ml_score := by
  intro b hb
  rw [generate_ml_based_recommendations] at hb
  split at hb
  · exact absurd hb (by simp)
  · have hb1 := ((List.mergeSort_perm _ _).mem_iff).mp ((List.take_sublist _ _).subset hb)
    rw [List.mem_filterMap] at hb1
    obtain ⟨i, _, hfi⟩ := hb1
    split at hfi
    · exact absurd hfi (by simp)
    next r ht =>
      split at hfi
      next hle =>
        split at hfi
        · exact absurd hfi (by simp)
        next s hps =>
          injection hfi with hfi
          obtain ⟨hc, _, _⟩ := runTrial_facts ht
          rw [← hfi]
          exact ⟨by dsimp; rw [← hc]; exact hle,
            by dsimp; exact predict_build_score_nonneg hps⟩
      next hle => exact absurd hfi (by simp)

/-- C6 witness: a concrete one-sample run with a constant scorer returns
exactly the demonstration build, which costs 36 of the 100 budget and
scores 50. -/
theorem sampling_output_within_budget_witness :
    buildCost demoScoredBuild.parts ≤ 100 ∧ 0 ≤ demoScoredBuild.ml_score := by
  apply sampling_output_within_budget demoPartsData demoMlModels (fun _ _ => 0) 100
    "General Use" 1 3 demoScoredBuild
  have hrt : runTrial demoPartsData 100 (fun _ => 0) = some (demoSmartBuild, 36) := by
    simp [runTrial, trialLoop, sampleOne, demoPartsData, demoSmartBuild, plainPart,
      socketPart, socketMatches, PART_TYPES_ORDER, sortByPrice, insertByPrice, List.lookup]
    norm_num
  have hps : predict_build_score [("General Use", fun _ => some (50:ℚ))] demoSmartBuild
      "General Use" = some 50 := by
    norm_num [predict_build_score, List.lookup]
  simp [generate_ml_based_recommendations, demoMlModels, List.range_succ, hrt, hps,
    List.mergeSort, demoScoredBuild, List.lookup]
  norm_num [List.filterMap_cons, List.mergeSort]

/-- C7 (amended): no caller-facing assembly operation validates the
budget; a non-positive budget flows into assembly, and on catalogs of
strictly positively priced records the tiered assembler returns no
builds, the smart assembler no build, and the sampling assembler an empty
list, with no error value anywhere. -/
theorem assembly_proceeds_on_nonpositive_budget (parts_data : PartsData)
    (normalization_ranges : NormRanges) (ml_models : MlModels) (oracle : Nat → Nat → Nat)
    (scen : String) (budget : ℚ) (num_samples top_n : Nat)
    (hb : budget ≤ 0)
    (hpos : ∀ e ∈ parts_data, ∀ p ∈ e.2, 0 < p.price) :
    recommend_builds_rule_based parts_data budget = [] ∧
    generate_smart_recommendation_rule_based parts_data normalization_ranges scen budget =
      none ∧
    generate_ml_based_recommendations parts_data ml_models oracle budget scen num_samples
      top_n = [] := by
  refine ⟨?_, ?_, ?_⟩
  · rw [recommend_builds_rule_based]
    split
    · next hall =>
      cases parts_data with
      | nil => simp [PART_TYPES] at hall
      | cons e rest =>
        obtain ⟨pt, df⟩ := e
        apply List.filterMap_eq_nil_iff.mpr
        intro i _
        have hfe : df.filter (fun p => p.price ≤ budget) = [] := by
          rw [List.filter_eq_nil_iff]
          intro p hp
          simp only [decide_eq_true_eq]
          have hpp := hpos (pt, df) (List.mem_cons_self _ _) p hp
          intro hle
          linarith
        simp only [assembleTierGo, hfe, pickTierPart]
    · rfl
  · rw [generate_smart_recommendation_rule_based]
    split
    · next cpu_df mb_df hcpu hmbd =>
      have hcc : cpuCandidates cpu_df budget = [] := by
        rw [cpuCandidates]
        have h0 : cpu_df.filter (fun p => p.price ≤ budget * (1/4)) = [] := by
          rw [List.filter_eq_nil_iff]
          intro p hp
          simp only [decide_eq_true_eq]
          have hpp := hpos _ (lookup_mem hcpu) p hp
          intro hle
          linarith
        rw [h0]
        rw [if_neg (fun hand => absurd hand.2 (not_lt.mpr hb))]
      rw [hcc]
      simp
    · rfl
  · rw [generate_ml_based_recommendations]
    split
    · rfl
    · have hnil : ((List.range num_samples).filterMap (fun i =>
          match runTrial parts_data budget (oracle i) with
          | none => none
          | some r =>
            if r.2 ≤ budget then
              match predict_build_score ml_models r.1 scen with
              | none => none
              | some s => some (⟨r.1, s⟩ : ScoredBuild)
            else none)) = [] := by
        apply List.filterMap_eq_nil_iff.mpr
        intro i _
        split
        · rfl
        · next r ht =>
          obtain ⟨hc, hne, hmem⟩ := runTrial_facts ht
          have hgt : ¬ (r.2 ≤ budget) := by
            have hpos' : 0 < buildCost r.1 := by
              rw [buildCost]
              apply List.sum_pos
              · intro x hx
                rw [List.mem_map] at hx
                obtain ⟨e, he, hex⟩ := hx
                obtain ⟨df, hdf, hedf⟩ := hmem e he
                rw [← hex]
                exact hpos _ (lookup_mem hdf) _ hedf
              · intro hmn
                rw [List.map_eq_nil_iff] at hmn
                exact hne hmn
            intro hle
            rw [hc] at hle
            linarith
          rw [if_neg hgt]
      rw [hnil, List.mergeSort_nil, List.take_nil]

/-- C7 witness: on the all-positive demonstration catalog a zero budget
flows through all three operations and produces empty results. -/
theorem assembly_proceeds_on_nonpositive_budget_witness :
    recommend_builds_rule_based demoPartsData 0 = [] ∧
    generate_smart_recommendation_rule_based demoPartsData [] "General Use" 0 = none ∧
    generate_ml_based_recommendations demoPartsData demoMlModels (fun _ _ => 0) 0
      "General Use" 1 3 = [] :=
  assembly_proceeds_on_nonpositive_budget demoPartsData [] demoMlModels (fun _ _ => 0)
    "General Use" 0 1 3 (le_refl 0) (by norm_num [demoPartsData, plainPart, socketPart])

/-- Every motherboard candidate set of the smart assembler, including the
widened retry and the cheapest-compatible fallback, is restricted to
records whose socket matches the selected CPU's socket. -/
theorem mbCandidates_socket {motherboard_df : List PartRecord} {cpu : PartRecord}
    {remaining : ℚ} {m : PartRecord}
    (hm : m ∈ mbCandidates motherboard_df cpu remaining) : m.socket = cpu.socket := by
  rw [mbCandidates] at hm
  split_ifs at hm with h1 h2
  · exact socketMatches_eq (List.mem_filter.mp (mem_sortByPrice.mp
      ((List.take_sublist _ _).subset hm))).2
  · have h2 := (List.mem_filter.mp hm).2
    rw [Bool.and_eq_true] at h2
    exact socketMatches_eq h2.1
  · have h2 := (List.mem_filter.mp hm).2
    rw [Bool.and_eq_true] at h2
    exact socketMatches_eq h2.1

/-- C2: whenever the Scenario Smart Assembler returns a build, the
motherboard's socket equals the selected CPU's socket. -/
theorem smart_socket_compatibility (parts_data : PartsData)
    (normalization_ranges : NormRanges) (scen : String) (budget : ℚ) (b : Build)
    (cpu mb : PartRecord)
    (h : generate_smart_recommendation_rule_based parts_data normalization_ranges scen
      budget = some b)
    (hc : b.lookup "CPU" = some cpu) (hm : b.lookup "Motherboard" = some mb) :
    mb.socket = cpu.socket := by
  rw [generate_smart_recommendation_rule_based] at h
  split at h
  · split at h
    · exact absurd h (by simp)
    · split at h
      · exact absurd h (by simp)
      next cpu0 hsel =>
        split at h
        · exact absurd h (by simp)
        · split at h
          · exact absurd h (by simp)
          next mb0 hselm =>
            split at h
            · exact absurd h (by simp)
            next r hloop =>
              split at h
              · injection h with h
                rw [← h] at hc hm
                simp [List.lookup] at hc hm
                rw [← hc, ← hm]
                exact mbCandidates_socket (select_best_mem hselm)
              · exact absurd h (by simp)
  · exact absurd h (by simp)

set_option maxHeartbeats 1600000 in
/-- C2 witness: on the demonstration catalog the assembled build pairs the
motherboard and CPU on socket "S1". -/
theorem smart_socket_compatibility_witness :
    (socketPart "m10" 10 "S1").socket = (socketPart "c20" 20 "S1").socket := by
  apply smart_socket_compatibility demoPartsData [] "General Use" 100 demoSmartBuild
    (socketPart "c20" 20 "S1") (socketPart "m10" 10 "S1")
  · have hW : (FEATURE_WEIGHTS.lookup "General Use").getD GENERAL_USE_WEIGHTS =
        GENERAL_USE_WEIGHTS := rfl
    have hAl : (BUDGET_ALLOCATION.lookup "General Use").getD GENERAL_USE_ALLOC =
        GENERAL_USE_ALLOC := rfl
    have hA : cpuCandidates [⟨"c20", 20, some "S1", []⟩] 100 =
        [(⟨"c20", 20, some "S1", []⟩ : PartRecord)] := by
      norm_num [cpuCandidates]
    have hB : ∀ w, select_best_part_by_score [⟨"c20", 20, some "S1", []⟩] w [] "CPU" =
        some (⟨"c20", 20, some "S1", []⟩ : PartRecord) := fun _ => rfl
    have hC : mbCandidates [⟨"m10", 10, some "S1", []⟩] ⟨"c20", 20, some "S1", []⟩
        (100 - 20) = [(⟨"m10", 10, some "S1", []⟩ : PartRecord)] := by
      norm_num [mbCandidates, socketMatches]
    have hB2 : ∀ w, select_best_part_by_score [⟨"m10", 10, some "S1", []⟩] w []
        "Motherboard" = some (⟨"m10", 10, some "S1", []⟩ : PartRecord) := fun _ => rfl
    have hD : smartLoop [("CPU", [⟨"c20", 20, some "S1", []⟩]),
        ("GPU", [⟨"g1", 1, none, []⟩]), ("Motherboard", [⟨"m10", 10, some "S1", []⟩]),
        ("RAM", [⟨"r1", 1, none, []⟩]), ("Storage", [⟨"s1", 1, none, []⟩]),
        ("PSU", [⟨"p1", 1, none, []⟩]), ("Case", [⟨"k1", 1, none, []⟩]),
        ("Cooler", [⟨"l1", 1, none, []⟩])] [] GENERAL_USE_WEIGHTS GENERAL_USE_ALLOC 100
        PART_TYPES_ORDER [] (20 + 10) =
        some ([("GPU", ⟨"g1", 1, none, []⟩), ("RAM", ⟨"r1", 1, none, []⟩),
          ("Storage", ⟨"s1", 1, none, []⟩), ("PSU", ⟨"p1", 1, none, []⟩),
          ("Case", ⟨"k1", 1, none, []⟩), ("Cooler", ⟨"l1", 1, none, []⟩)], 36) := by
      simp [smartLoop, select_best_part_by_score, scorePart, argmaxAux, normalizeFeature,
        PartRecord.getFeature, GENERAL_USE_WEIGHTS, GENERAL_USE_ALLOC, PART_TYPES_ORDER,
        List.lookup]
      norm_num [argmaxAux, normalizeFeature, PartRecord.getFeature, List.lookup]
    simp only [generate_smart_recommendation_rule_based]
    simp [demoPartsData, List.lookup, hW, hAl, hA, hB, hC, hB2, hD, socketPart,
      plainPart, demoSmartBuild, REQUIRED_PARTS]
  · rfl
  · rfl

set_option maxHeartbeats 1600000 in
/-- C3: at a catalog whose sole GPU exceeds the whole remaining budget the
smart assembler returns no build at all: the source's warning message
claims the cheapest GPU was selected, but the assignment is discarded by
the following empty-frame test and the function returns `None` instead of
including the over-budget part. -/
theorem smart_cheapest_fallback_unreachable :
    generate_smart_recommendation_rule_based gpuTooDearPartsData [] "General Use" 100 =
      none := by
  have hA : cpuCandidates [⟨"c20", 20, some "S1", []⟩] 100 =
      [(⟨"c20", 20, some "S1", []⟩ : PartRecord)] := by
    norm_num [cpuCandidates]
  have hB : ∀ w, select_best_part_by_score [⟨"c20", 20, some "S1", []⟩] w [] "CPU" =
      some (⟨"c20", 20, some "S1", []⟩ : PartRecord) := fun _ => rfl
  have hC : mbCandidates [⟨"m10", 10, some "S1", []⟩] ⟨"c20", 20, some "S1", []⟩
      (100 - 20) = [(⟨"m10", 10, some "S1", []⟩ : PartRecord)] := by
    norm_num [mbCandidates, socketMatches]
  have hB2 : ∀ w, select_best_part_by_score [⟨"m10", 10, some "S1", []⟩] w []
      "Motherboard" = some (⟨"m10", 10, some "S1", []⟩ : PartRecord) := fun _ => rfl
  have hD : smartLoop [("CPU", [⟨"c20", 20, some "S1", []⟩]),
      ("GPU", [⟨"g500", 500, none, []⟩]), ("Motherboard", [⟨"m10", 10, some "S1", []⟩]),
      ("RAM", [⟨"r1", 1, none, []⟩]), ("Storage", [⟨"s1", 1, none, []⟩]),
      ("PSU", [⟨"p1", 1, none, []⟩]), ("Case", [⟨"k1", 1, none, []⟩]),
      ("Cooler", [⟨"l1", 1, none, []⟩])] [] GENERAL_USE_WEIGHTS GENERAL_USE_ALLOC 100
      PART_TYPES_ORDER [] (20 + 10) = none := by
    simp [smartLoop, select_best_part_by_score, scorePart, argmaxAux, normalizeFeature,
      PartRecord.getFeature, GENERAL_USE_WEIGHTS, GENERAL_USE_ALLOC, PART_TYPES_ORDER,
      List.lookup]
    norm_num
  simp only [generate_smart_recommendation_rule_based]
  simp [gpuTooDearPartsData, List.lookup, hA, hB, hC, hB2, hD, socketPart, plainPart]

set_option maxHeartbeats 1600000 in
/-- C10: at a catalog whose only socket-matching motherboard costs more
than the whole budget, the cheapest-compatible fallback does select it and
push the running total over budget, but the next category's selection then
finds nothing affordable against the negative remaining budget and the
assembler returns `None` rather than an over-budget build. -/
theorem smart_fallback_overrun_rejected_later :
    generate_smart_recommendation_rule_based mbTooDearPartsData [] "General Use" 100 =
      none := by
  have hA : cpuCandidates [⟨"c20", 20, some "S1", []⟩] 100 =
      [(⟨"c20", 20, some "S1", []⟩ : PartRecord)] := by
    norm_num [cpuCandidates]
  have hB : ∀ w, select_best_part_by_score [⟨"c20", 20, some "S1", []⟩] w [] "CPU" =
      some (⟨"c20", 20, some "S1", []⟩ : PartRecord) := fun _ => rfl
  have hC : mbCandidates [⟨"m200", 200, some "S1", []⟩] ⟨"c20", 20, some "S1", []⟩
      (100 - 20) = [(⟨"m200", 200, some "S1", []⟩ : PartRecord)] := by
    simp [mbCandidates, socketMatches, sortByPrice, insertByPrice]
    norm_num
  have hB2 : ∀ w, select_best_part_by_score [⟨"m200", 200, some "S1", []⟩] w []
      "Motherboard" = some (⟨"m200", 200, some "S1", []⟩ : PartRecord) := fun _ => rfl
  have hD : smartLoop [("CPU", [⟨"c20", 20, some "S1", []⟩]),
      ("GPU", [⟨"g1", 1, none, []⟩]), ("Motherboard", [⟨"m200", 200, some "S1", []⟩]),
      ("RAM", [⟨"r1", 1, none, []⟩]), ("Storage", [⟨"s1", 1, none, []⟩]),
      ("PSU", [⟨"p1", 1, none, []⟩]), ("Case", [⟨"k1", 1, none, []⟩]),
      ("Cooler", [⟨"l1", 1, none, []⟩])] [] GENERAL_USE_WEIGHTS GENERAL_USE_ALLOC 100
      PART_TYPES_ORDER [] (20 + 200) = none := by
    simp [smartLoop, select_best_part_by_score, scorePart, argmaxAux, normalizeFeature,
      PartRecord.getFeature, GENERAL_USE_WEIGHTS, GENERAL_USE_ALLOC, PART_TYPES_ORDER,
      List.lookup]
    norm_num
  simp only [generate_smart_recommendation_rule_based]
  simp [mbTooDearPartsData, List.lookup, hA, hB, hC, hB2, hD, socketPart, plainPart]
